import Mathlib

/-!
Verification of the `menulist` package (my-ebiten repository).

The Go source (`src/my-packages/menulist/menulist.go`) is shallowly embedded:
Go `int` becomes `Int`, Go `float64` fields (translations and offsets, which
the code only compares to zero and adds) become `ℚ`, nil-able pointers
(`*color.NRGBA`, `*int`, `*ebiten.Image`) become `Option`, and the fallible
constructor keeps Go's `(MenuList, error)` shape as `MenuList × Option String`.
The `Draw` method is embedded as a pure function producing the ordered trace
of rendering effects (fill colour, text draw, composite translation) that the
Go loop performs on its destination surface.
-/

set_option maxHeartbeats 1000000

namespace Menulist

/-- An RGBA colour, embedding Go's `color.NRGBA` struct. -/
structure Colour where
  r : Nat
  g : Nat
  b : Nat
  a : Nat
deriving DecidableEq, Repr

/-- A menu item, embedding the Go struct `MenuItem`.  The `image` pointer is
modelled as an optional (width, height) pair recording the allocated size. -/
structure MenuItem where
  Name : String
  Text : String
  TxtX : Int := 0
  TxtY : Int := 0
  image : Option (Int × Int) := none
  BgColour : Option Colour := none
  TxtColour : Option Colour := none
  SelBgColour : Option Colour := none
  SelTxtColour : Option Colour := none
deriving DecidableEq, Repr

/-- The menu list, embedding the Go struct `MenuList`.  `SelectedIndex` is a
`*int` in Go; `none` models the nil pointer of the zero value. -/
structure MenuList where
  Tx : ℚ
  Ty : ℚ
  Width : Int
  Height : Int
  Offx : ℚ
  Offy : ℚ
  DefaultBgColour : Option Colour
  DefaultTxtColour : Option Colour
  DefaultSelBgColour : Option Colour
  DefaultSelTxtColour : Option Colour
  SelectedIndex : Option Int
  MenuItems : List MenuItem
deriving DecidableEq, Repr

/-- Go's zero value `MenuList{}`: zero numbers, nil pointers, nil slice. -/
def MenuList.goZero : MenuList :=
  ⟨0, 0, 0, 0, 0, 0, none, none, none, none, none, []⟩

/-- The construction input, embedding the Go struct `MenuListInput`
(note the Go field name `DefaultSelBGColour`, capital `BG`). -/
structure MenuListInput where
  Tx : ℚ := 0
  Ty : ℚ := 0
  Width : Int
  Height : Int
  Offx : ℚ := 0
  Offy : ℚ := 0
  DefaultBgColour : Option Colour := none
  DefaultTxtColour : Option Colour := none
  DefaultSelBGColour : Option Colour := none
  DefaultSelTxtColour : Option Colour := none
  MenuItems : List MenuItem
deriving DecidableEq, Repr

/-- Error message for a missing width, verbatim from the source. -/
def widthMissingMsg : String := "Mandatory input field width is missing"

/-- Error message for a missing height, verbatim from the source. -/
def heightMissingMsg : String := "Mandatory input field height is missing"

/-- Error message for missing menu items, verbatim from the source. -/
def menuItemsMissingMsg : String := "Mandatory input field MenuItems is missing"

/-- The fixed fallback background colour (cyan) from the source. -/
def cyanColour : Colour := ⟨0x00, 0xff, 0xff, 0xff⟩

/-- The fixed fallback text colour (black) from the source. -/
def blackColour : Colour := ⟨0x00, 0x00, 0x00, 0xff⟩

/-- The fixed fallback selected background colour (magenta) from the source. -/
def magentaColour : Colour := ⟨0xff, 0x00, 0xff, 0xff⟩

/-- The fixed fallback selected text colour (white) from the source. -/
def whiteColour : Colour := ⟨0xff, 0xff, 0xff, 0xff⟩

/-- Body of the per-item loop of `NewMenu`: each of the four colour fields is
resolved independently (item override when non-nil, else the list default),
and a zero `TxtY` is defaulted to `height - 5`. -/
def resolveItem (dBg dTxt dSelBg dSelTxt : Option Colour) (height : Int)
    (item : MenuItem) : MenuItem :=
  { item with
    BgColour := match item.BgColour with
      | some c => some c
      | none => dBg
    TxtColour := match item.TxtColour with
      | some c => some c
      | none => dTxt
    SelBgColour := match item.SelBgColour with
      | some c => some c
      | none => dSelBg
    SelTxtColour := match item.SelTxtColour with
      | some c => some c
      | none => dSelTxt
    TxtY := if item.TxtY = 0 then height - 5 else item.TxtY }

/-- Embedding of `NewMenu`.  The Go function returns `(MenuList, error)`;
on a validation failure it returns the zero `MenuList` and the error.  The
second loop allocates a `Width × Height` image per item (the allocation error
is discarded in the source). -/
def NewMenu (input : MenuListInput) : MenuList × Option String :=
  if input.Width = 0 then
    (MenuList.goZero, some widthMissingMsg)
  else if input.Height = 0 then
    (MenuList.goZero, some heightMissingMsg)
  else if input.MenuItems.length < 1 then
    (MenuList.goZero, some menuItemsMissingMsg)
  else
    let offy : ℚ := if input.Offy = 0 then (input.Height : ℚ) else input.Offy
    let dBg : Option Colour := match input.DefaultBgColour with
      | some c => some c
      | none => some cyanColour
    let dTxt : Option Colour := match input.DefaultTxtColour with
      | some c => some c
      | none => some blackColour
    let dSelBg : Option Colour := match input.DefaultSelBGColour with
      | some c => some c
      | none => some magentaColour
    let dSelTxt : Option Colour := match input.DefaultSelTxtColour with
      | some c => some c
      | none => some whiteColour
    let items :=
      (input.MenuItems.map (resolveItem dBg dTxt dSelBg dSelTxt input.Height)).map
        (fun item => { item with image := some (input.Width, input.Height) })
    ({ Tx := input.Tx
       Ty := input.Ty
       Width := input.Width
       Height := input.Height
       Offx := input.Offx
       Offy := offy
       DefaultBgColour := dBg
       DefaultTxtColour := dTxt
       DefaultSelBgColour := dSelBg
       DefaultSelTxtColour := dSelTxt
       SelectedIndex := some 0
       MenuItems := items }, none)

/-- Embedding of `GetSelectedItem`.  Go dereferences `*m.SelectedIndex` and
indexes the slice; a nil pointer or out-of-range index panics, modelled as
`none`. -/
def GetSelectedItem (m : MenuList) : Option String :=
  m.SelectedIndex.bind fun s =>
    if s < 0 then none
    else (m.MenuItems.get? s.toNat).map MenuItem.Name

/-- Embedding of `IncrementSelected`: increments the selected index when it is
below `len(MenuItems) - 1`, else leaves it unchanged. -/
def IncrementSelected (m : MenuList) : MenuList :=
  { m with SelectedIndex := m.SelectedIndex.map fun s =>
      if s < (m.MenuItems.length : Int) - 1 then s + 1 else s }

/-- Embedding of `DecrementSelected`: decrements the selected index when it is
above 0, else leaves it unchanged. -/
def DecrementSelected (m : MenuList) : MenuList :=
  { m with SelectedIndex := m.SelectedIndex.map fun s =>
      if s > 0 then s - 1 else s }

/-- A navigation call: the two mutators of the selection cursor. -/
inductive NavOp where
  | inc
  | dec
deriving DecidableEq, Repr

/-- Apply one navigation call. -/
def applyOp (m : MenuList) (op : NavOp) : MenuList :=
  match op with
  | NavOp.inc => IncrementSelected m
  | NavOp.dec => DecrementSelected m

/-- Apply a finite sequence of navigation calls, first element first. -/
def applyOps (m : MenuList) (ops : List NavOp) : MenuList :=
  ops.foldl applyOp m

/-- One iteration of the `Draw` loop, as observed on the item's surface and
the destination: the fill colour, the text draw (string, colour, position),
and the translation at which the item's surface is composited. -/
structure RenderStep where
  fillColour : Option Colour
  textColour : Option Colour
  textStr : String
  textX : Int
  textY : Int
  translateX : ℚ
  translateY : ℚ
deriving DecidableEq, Repr

/-- The `Draw` loop: `index` counts up from 0, the cumulative translation
starts at `(tx, ty)` and advances by `(offx, offy)` after each item. -/
def drawLoop (sel : Int) (offx offy : ℚ) :
    List MenuItem → Int → ℚ → ℚ → List RenderStep
  | [], _, _, _ => []
  | item :: rest, index, tx, ty =>
    { fillColour := if index = sel then item.SelBgColour else item.BgColour
      textColour := if index = sel then item.SelTxtColour else item.TxtColour
      textStr := item.Text
      textX := item.TxtX
      textY := item.TxtY
      translateX := tx
      translateY := ty } :: drawLoop sel offx offy rest (index + 1) (tx + offx) (ty + offy)

/-- Embedding of `Draw` as the trace of rendering effects it performs, in
order.  Go dereferences `*m.SelectedIndex`; a nil pointer panics, modelled as
`none`. -/
def Draw (m : MenuList) : Option (List RenderStep) :=
  m.SelectedIndex.map fun sel => drawLoop sel m.Offx m.Offy m.MenuItems 0 m.Tx m.Ty

/-- A concrete construction input used to instantiate hypotheses: the 3-item
A/B/C scenario with width 128 and height 36. -/
def sampleInput : MenuListInput :=
  { Width := 128
    Height := 36
    MenuItems :=
      [{ Name := "A", Text := "A" }, { Name := "B", Text := "B" },
       { Name := "C", Text := "C" }] }

/-- A construction input with both width and height missing. -/
def badInput : MenuListInput :=
  { Width := 0, Height := 0, MenuItems := [{ Name := "A", Text := "A" }] }

theorem newMenu_err_none_iff (input : MenuListInput) :
    (NewMenu input).2 = none ↔
      input.Width ≠ 0 ∧ input.Height ≠ 0 ∧ input.MenuItems ≠ [] := by
  unfold NewMenu
  split_ifs with h1 h2 h3 <;>
    simp_all [Nat.lt_one_iff, List.length_eq_zero]

theorem newMenu_success (input : MenuListInput)
    (hW : input.Width ≠ 0) (hH : input.Height ≠ 0) (hI : input.MenuItems ≠ []) :
    NewMenu input =
      ({ Tx := input.Tx
         Ty := input.Ty
         Width := input.Width
         Height := input.Height
         Offx := input.Offx
         Offy := if input.Offy = 0 then (input.Height : ℚ) else input.Offy
         DefaultBgColour := some (input.DefaultBgColour.getD cyanColour)
         DefaultTxtColour := some (input.DefaultTxtColour.getD blackColour)
         DefaultSelBgColour := some (input.DefaultSelBGColour.getD magentaColour)
         DefaultSelTxtColour := some (input.DefaultSelTxtColour.getD whiteColour)
         SelectedIndex := some 0
         MenuItems :=
           (input.MenuItems.map
             (resolveItem (some (input.DefaultBgColour.getD cyanColour))
               (some (input.DefaultTxtColour.getD blackColour))
               (some (input.DefaultSelBGColour.getD magentaColour))
               (some (input.DefaultSelTxtColour.getD whiteColour)) input.Height)).map
             (fun item => { item with image := some (input.Width, input.Height) }) },
       none) := by
  have hI' : ¬ input.MenuItems.length < 1 := by
    simpa [Nat.lt_one_iff, List.length_eq_zero] using hI
  unfold NewMenu
  rw [if_neg hW, if_neg hH, if_neg hI']
  cases hBg : input.DefaultBgColour <;> cases hTxt : input.DefaultTxtColour <;>
    cases hSB : input.DefaultSelBGColour <;> cases hST : input.DefaultSelTxtColour <;>
      simp [Option.getD]

theorem applyOp_MenuItems (m : MenuList) (op : NavOp) :
    (applyOp m op).MenuItems = m.MenuItems := by
  cases op <;> rfl

theorem applyOps_MenuItems (ops : List NavOp) (m : MenuList) :
    (applyOps m ops).MenuItems = m.MenuItems := by
  induction ops generalizing m with
  | nil => rfl
  | cons op rest ih =>
    rw [applyOps, List.foldl_cons, ← applyOps, ih, applyOp_MenuItems]

/-- The navigation invariant: the cursor is a live pointer holding an index
between 0 and `len(MenuItems) - 1`. -/
def goodCursor (m : MenuList) : Prop :=
  ∃ s : Int, m.SelectedIndex = some s ∧ 0 ≤ s ∧ s ≤ (m.MenuItems.length : Int) - 1

theorem applyOp_goodCursor (m : MenuList) (op : NavOp) (h : goodCursor m) :
    goodCursor (applyOp m op) := by
  obtain ⟨s, hs, h0, h1⟩ := h
  cases op with
  | inc =>
    refine ⟨if s < (m.MenuItems.length : Int) - 1 then s + 1 else s, ?_, ?_, ?_⟩
    · simp [applyOp, IncrementSelected, hs]
    · split <;> omega
    · rw [applyOp_MenuItems]
      split <;> omega
  | dec =>
    refine ⟨if 0 < s then s - 1 else s, ?_, ?_, ?_⟩
    · simp [applyOp, DecrementSelected, hs]
    · split <;> omega
    · rw [applyOp_MenuItems]
      split <;> omega

theorem applyOps_goodCursor (ops : List NavOp) (m : MenuList) (h : goodCursor m) :
    goodCursor (applyOps m ops) := by
  induction ops generalizing m with
  | nil => exact h
  | cons op rest ih =>
    rw [applyOps, List.foldl_cons, ← applyOps]
    exact ih _ (applyOp_goodCursor m op h)

theorem built_goodCursor (input : MenuListInput) (h : (NewMenu input).2 = none) :
    goodCursor (NewMenu input).1 := by
  obtain ⟨hW, hH, hI⟩ := (newMenu_err_none_iff input).1 h
  rw [newMenu_success input hW hH hI]
  refine ⟨0, rfl, le_refl 0, ?_⟩
  have : input.MenuItems.length ≠ 0 := by
    simpa [List.length_eq_zero] using hI
  simp only [List.length_map]
  omega

theorem IncrementSelected_cursor (m : MenuList) (s : Int)
    (hs : m.SelectedIndex = some s) :
    (IncrementSelected m).SelectedIndex =
      some (if s < (m.MenuItems.length : Int) - 1 then s + 1 else s) := by
  simp [IncrementSelected, hs]

theorem DecrementSelected_cursor (m : MenuList) (s : Int)
    (hs : m.SelectedIndex = some s) :
    (DecrementSelected m).SelectedIndex = some (if 0 < s then s - 1 else s) := by
  simp [DecrementSelected, hs]

theorem applyOps_replicate_inc (n : Nat) (m : MenuList) (s : Int)
    (hs : m.SelectedIndex = some s) (h1 : s ≤ (m.MenuItems.length : Int) - 1) :
    (applyOps m (List.replicate n NavOp.inc)).SelectedIndex =
      some (min (s + (n : Int)) ((m.MenuItems.length : Int) - 1)) := by
  induction n generalizing m s with
  | zero =>
    simp only [List.replicate, applyOps, List.foldl_nil, hs, Nat.cast_zero, add_zero,
      Option.some.injEq]
    omega
  | succ n ih =>
    rw [List.replicate_succ, applyOps, List.foldl_cons, ← applyOps]
    have hItems : (applyOp m NavOp.inc).MenuItems = m.MenuItems := rfl
    have hs' : (applyOp m NavOp.inc).SelectedIndex =
        some (if s < (m.MenuItems.length : Int) - 1 then s + 1 else s) :=
      IncrementSelected_cursor m s hs
    rw [ih (applyOp m NavOp.inc) _ hs' (by rw [hItems]; split <;> omega), hItems]
    congr 1
    push_cast
    split <;> omega

theorem drawLoop_length (selv : Int) (offx offy : ℚ) (items : List MenuItem)
    (k : Int) (tx ty : ℚ) :
    (drawLoop selv offx offy items k tx ty).length = items.length := by
  induction items generalizing k tx ty with
  | nil => rfl
  | cons item rest ih => simp [drawLoop, ih]

theorem drawLoop_get? (selv : Int) (offx offy : ℚ) (items : List MenuItem)
    (k : Int) (tx ty : ℚ) (i : Nat) (item : MenuItem)
    (hit : items.get? i = some item) :
    (drawLoop selv offx offy items k tx ty).get? i = some
      { fillColour := if k + (i : Int) = selv then item.SelBgColour else item.BgColour
        textColour := if k + (i : Int) = selv then item.SelTxtColour else item.TxtColour
        textStr := item.Text
        textX := item.TxtX
        textY := item.TxtY
        translateX := tx + (i : ℚ) * offx
        translateY := ty + (i : ℚ) * offy } := by
  induction items generalizing k tx ty i with
  | nil => simp at hit
  | cons hd rest ih =>
    cases i with
    | zero =>
      rw [List.get?_cons_zero, Option.some.injEq] at hit
      subst hit
      simp [drawLoop]
    | succ i =>
      rw [List.get?_cons_succ] at hit
      have e1 : k + ((i + 1 : Nat) : Int) = k + 1 + (i : Int) := by push_cast; ring
      have e2 : tx + ((i + 1 : Nat) : ℚ) * offx = tx + offx + (i : ℚ) * offx := by
        push_cast; ring
      have e3 : ty + ((i + 1 : Nat) : ℚ) * offy = ty + offy + (i : ℚ) * offy := by
        push_cast; ring
      rw [drawLoop, List.get?_cons_succ, e1, e2, e3]
      exact ih (k + 1) (tx + offx) (ty + offy) i hit

/-- C1: for every construction input on which `NewMenu` succeeds, every item's
four colour fields are non-null (`some`) after construction, and each field
independently equals the item's supplied override when present, else the
list's resolved default for that field (the caller-supplied default when
present, else the fixed fallback cyan / black / magenta / white). -/
theorem newMenu_colour_resolution (input : MenuListInput)
    (h : (NewMenu input).2 = none) (i : Nat) (itemIn : MenuItem)
    (hIn : input.MenuItems.get? i = some itemIn) :
    ∃ itemOut : MenuItem,
      (NewMenu input).1.MenuItems.get? i = some itemOut ∧
      itemOut.BgColour =
        some (itemIn.BgColour.getD (input.DefaultBgColour.getD cyanColour)) ∧
      itemOut.TxtColour =
        some (itemIn.TxtColour.getD (input.DefaultTxtColour.getD blackColour)) ∧
      itemOut.SelBgColour =
        some (itemIn.SelBgColour.getD (input.DefaultSelBGColour.getD magentaColour)) ∧
      itemOut.SelTxtColour =
        some (itemIn.SelTxtColour.getD (input.DefaultSelTxtColour.getD whiteColour)) := by
  obtain ⟨hW, hH, hI⟩ := (newMenu_err_none_iff input).1 h
  rw [newMenu_success input hW hH hI]
  simp only [List.get?_map, hIn, Option.map_some']
  refine ⟨_, rfl, ?_, ?_, ?_, ?_⟩
  · cases hc : itemIn.BgColour <;> simp [resolveItem, hc]
  · cases hc : itemIn.TxtColour <;> simp [resolveItem, hc]
  · cases hc : itemIn.SelBgColour <;> simp [resolveItem, hc]
  · cases hc : itemIn.SelTxtColour <;> simp [resolveItem, hc]

theorem newMenu_colour_resolution_witness :
    ∃ itemOut : MenuItem,
      (NewMenu sampleInput).1.MenuItems.get? 1 = some itemOut ∧
      itemOut.BgColour = some cyanColour ∧
      itemOut.TxtColour = some blackColour ∧
      itemOut.SelBgColour = some magentaColour ∧
      itemOut.SelTxtColour = some whiteColour := by
  have h := newMenu_colour_resolution sampleInput rfl 1
    { Name := "B", Text := "B" } rfl
  simpa using h

/-- C7: for every successfully built list, `Offy` equals the supplied value
when nonzero and `Height` when the supplied value is zero; `Offx` is passed
through unchanged. -/
theorem newMenu_offsets (input : MenuListInput) (h : (NewMenu input).2 = none) :
    (NewMenu input).1.Offy =
      (if input.Offy = 0 then (input.Height : ℚ) else input.Offy) ∧
    (NewMenu input).1.Offx = input.Offx := by
  obtain ⟨hW, hH, hI⟩ := (newMenu_err_none_iff input).1 h
  rw [newMenu_success input hW hH hI]
  exact ⟨rfl, rfl⟩

theorem newMenu_offsets_witness :
    (NewMenu sampleInput).1.Offy =
      (if sampleInput.Offy = 0 then (sampleInput.Height : ℚ) else sampleInput.Offy) ∧
    (NewMenu sampleInput).1.Offx = sampleInput.Offx :=
  newMenu_offsets sampleInput rfl

/-- C8: for every successfully built list, an item whose `TxtY` is the zero
sentinel in the input resolves to `Height - 5`, and a nonzero `TxtY` is kept
as supplied. -/
theorem newMenu_txtY (input : MenuListInput) (h : (NewMenu input).2 = none)
    (i : Nat) (itemIn : MenuItem) (hIn : input.MenuItems.get? i = some itemIn) :
    ∃ itemOut : MenuItem,
      (NewMenu input).1.MenuItems.get? i = some itemOut ∧
      itemOut.TxtY = (if itemIn.TxtY = 0 then input.Height - 5 else itemIn.TxtY) := by
  obtain ⟨hW, hH, hI⟩ := (newMenu_err_none_iff input).1 h
  rw [newMenu_success input hW hH hI]
  simp only [List.get?_map, hIn, Option.map_some']
  refine ⟨_, rfl, ?_⟩
  by_cases hy : itemIn.TxtY = 0 <;> simp [resolveItem, hy]

theorem newMenu_txtY_witness :
    ∃ itemOut : MenuItem,
      (NewMenu sampleInput).1.MenuItems.get? 0 = some itemOut ∧
      itemOut.TxtY = 31 := by
  have h := newMenu_txtY sampleInput rfl 0 { Name := "A", Text := "A" } rfl
  simpa using h

/-- C9: when several mandatory fields are invalid the validation error follows
a fixed precedence: width first, then height, then the empty item list. -/
theorem newMenu_error_precedence (input : MenuListInput) :
    (input.Width = 0 → (NewMenu input).2 = some widthMissingMsg) ∧
    (input.Width ≠ 0 → input.Height = 0 →
      (NewMenu input).2 = some heightMissingMsg) ∧
    (input.Width ≠ 0 → input.Height ≠ 0 → input.MenuItems = [] →
      (NewMenu input).2 = some menuItemsMissingMsg) := by
  refine ⟨fun hW => ?_, fun hW hH => ?_, fun hW hH hI => ?_⟩
  · simp [NewMenu, hW]
  · simp [NewMenu, hW, hH]
  · simp [NewMenu, hW, hH, hI]

theorem newMenu_error_precedence_witness :
    badInput.Width = 0 ∧ (NewMenu badInput).2 = some widthMissingMsg :=
  ⟨rfl, (newMenu_error_precedence badInput).1 rfl⟩

/-- C10: a failed construction is atomic: `NewMenu` returns Go's zero-valued
`MenuList` alongside the error, with no defaulting, colour resolution,
text-offset resolution, or surface allocation performed for any item. -/
theorem newMenu_error_zero (input : MenuListInput)
    (h : (NewMenu input).2 ≠ none) :
    (NewMenu input).1 = MenuList.goZero := by
  by_cases hW : input.Width = 0
  · simp [NewMenu, hW]
  · by_cases hH : input.Height = 0
    · simp [NewMenu, hW, hH]
    · by_cases hI : input.MenuItems.length < 1
      · simp [NewMenu, hW, hH, hI]
      · exact absurd (by simp [NewMenu, hW, hH, hI]) h

theorem newMenu_error_zero_witness :
    (NewMenu badInput).2 ≠ none ∧ (NewMenu badInput).1 = MenuList.goZero :=
  ⟨by simp [show (NewMenu badInput).2 = some widthMissingMsg from rfl],
   newMenu_error_zero badInput
     (by simp [show (NewMenu badInput).2 = some widthMissingMsg from rfl])⟩

/-- C2: `NewMenu` fails with a validation error exactly when the width is 0,
the height is 0, or the item list is empty; any error it returns names a field
that is actually missing; and for every successfully built list, the
navigation and render operations never produce an error (`GetSelectedItem`
and `Draw` stay `some` after any sequence of navigation calls). -/
theorem newMenu_validation (input : MenuListInput) :
    ((NewMenu input).2 = none ↔
      ¬(input.Width = 0 ∨ input.Height = 0 ∨ input.MenuItems = [])) ∧
    (∀ e : String, (NewMenu input).2 = some e →
      (e = widthMissingMsg ∧ input.Width = 0) ∨
      (e = heightMissingMsg ∧ input.Height = 0) ∨
      (e = menuItemsMissingMsg ∧ input.MenuItems = [])) ∧
    ((NewMenu input).2 = none → ∀ ops : List NavOp,
      (GetSelectedItem (applyOps (NewMenu input).1 ops)).isSome ∧
      (Draw (applyOps (NewMenu input).1 ops)).isSome) := by
  refine ⟨?_, ?_, ?_⟩
  · rw [newMenu_err_none_iff]
    tauto
  · intro e he
    unfold NewMenu at he
    split_ifs at he with h1 h2 h3 <;>
      simp_all [Nat.lt_one_iff, List.length_eq_zero]
  · intro h ops
    obtain ⟨s, hs, h0, h1⟩ := applyOps_goodCursor ops _ (built_goodCursor input h)
    have hns : ¬ s < 0 := by omega
    have hlt : s.toNat < (applyOps (NewMenu input).1 ops).MenuItems.length := by
      omega
    constructor
    · simp [GetSelectedItem, hs, hns, List.getElem?_eq_getElem hlt]
    · simp [Draw, hs]

theorem newMenu_validation_witness :
    (NewMenu sampleInput).2 = none ∧
    (GetSelectedItem (applyOps (NewMenu sampleInput).1 [NavOp.inc])).isSome ∧
    (Draw (applyOps (NewMenu sampleInput).1 [NavOp.inc])).isSome :=
  ⟨rfl, ((newMenu_validation sampleInput).2.2 rfl [NavOp.inc]).1,
   ((newMenu_validation sampleInput).2.2 rfl [NavOp.inc]).2⟩

/-- C3: for every successfully built list the cursor starts at 0; from any
reachable state `IncrementSelected` adds 1 exactly when the cursor is below
`len(items) - 1` and is a no-op otherwise, `DecrementSelected` subtracts 1
exactly when the cursor is above 0 and is a no-op otherwise; and
`len(items) + 5` increments from the initial state leave the cursor at
`len(items) - 1`. -/
theorem selection_navigation (input : MenuListInput)
    (h : (NewMenu input).2 = none) :
    (NewMenu input).1.SelectedIndex = some 0 ∧
    (∀ ops : List NavOp, ∃ s : Int,
      (applyOps (NewMenu input).1 ops).SelectedIndex = some s ∧
      (IncrementSelected (applyOps (NewMenu input).1 ops)).SelectedIndex =
        some (if s < ((NewMenu input).1.MenuItems.length : Int) - 1 then s + 1 else s) ∧
      (DecrementSelected (applyOps (NewMenu input).1 ops)).SelectedIndex =
        some (if 0 < s then s - 1 else s)) ∧
    (applyOps (NewMenu input).1
        (List.replicate ((NewMenu input).1.MenuItems.length + 5) NavOp.inc)).SelectedIndex =
      some (((NewMenu input).1.MenuItems.length : Int) - 1) := by
  obtain ⟨hW, hH, hI⟩ := (newMenu_err_none_iff input).1 h
  have hsel : (NewMenu input).1.SelectedIndex = some 0 := by
    rw [newMenu_success input hW hH hI]
  have hlen : 1 ≤ (NewMenu input).1.MenuItems.length := by
    rw [newMenu_success input hW hH hI]
    simp only [List.length_map]
    have : input.MenuItems.length ≠ 0 := by
      simpa [List.length_eq_zero] using hI
    omega
  refine ⟨hsel, ?_, ?_⟩
  · intro ops
    obtain ⟨s, hs, h0, h1⟩ :=
      applyOps_goodCursor ops _ ⟨0, hsel, le_refl 0, by omega⟩
    refine ⟨s, hs, ?_, ?_⟩
    · rw [IncrementSelected_cursor _ s hs, applyOps_MenuItems]
    · rw [DecrementSelected_cursor _ s hs]
  · rw [applyOps_replicate_inc _ _ 0 hsel (by omega)]
    congr 1
    push_cast
    omega

theorem selection_navigation_witness :
    (NewMenu sampleInput).1.SelectedIndex = some 0 ∧
    (applyOps (NewMenu sampleInput).1
        (List.replicate ((NewMenu sampleInput).1.MenuItems.length + 5) NavOp.inc)).SelectedIndex =
      some (((NewMenu sampleInput).1.MenuItems.length : Int) - 1) :=
  ⟨(selection_navigation sampleInput rfl).1,
   (selection_navigation sampleInput rfl).2.2⟩

/-- C4: for every successfully built list and every finite sequence of
navigation calls, the cursor stays a live index with
`0 ≤ selected_index ≤ len(items) - 1`, and the item list (hence everything
but the cursor that the navigation operations touch) is unchanged. -/
theorem selection_invariant (input : MenuListInput)
    (h : (NewMenu input).2 = none) (ops : List NavOp) :
    ∃ s : Int,
      (applyOps (NewMenu input).1 ops).SelectedIndex = some s ∧
      0 ≤ s ∧ s ≤ ((NewMenu input).1.MenuItems.length : Int) - 1 ∧
      (applyOps (NewMenu input).1 ops).MenuItems = (NewMenu input).1.MenuItems := by
  obtain ⟨s, hs, h0, h1⟩ := applyOps_goodCursor ops _ (built_goodCursor input h)
  rw [applyOps_MenuItems] at h1
  exact ⟨s, hs, h0, h1, applyOps_MenuItems ops _⟩

theorem selection_invariant_witness :
    ∃ s : Int,
      (applyOps (NewMenu sampleInput).1 [NavOp.dec, NavOp.inc, NavOp.inc, NavOp.inc]).SelectedIndex
        = some s ∧
      0 ≤ s ∧ s ≤ ((NewMenu sampleInput).1.MenuItems.length : Int) - 1 ∧
      (applyOps (NewMenu sampleInput).1 [NavOp.dec, NavOp.inc, NavOp.inc, NavOp.inc]).MenuItems
        = (NewMenu sampleInput).1.MenuItems :=
  selection_invariant sampleInput rfl [NavOp.dec, NavOp.inc, NavOp.inc, NavOp.inc]

/-- C5: for every successfully built list and after any sequence of
navigation calls, `GetSelectedItem` returns the name of the item at the
current cursor index. -/
theorem selected_item_name (input : MenuListInput)
    (h : (NewMenu input).2 = none) (ops : List NavOp) :
    ∃ (s : Int) (item : MenuItem),
      (applyOps (NewMenu input).1 ops).SelectedIndex = some s ∧
      (applyOps (NewMenu input).1 ops).MenuItems.get? s.toNat = some item ∧
      GetSelectedItem (applyOps (NewMenu input).1 ops) = some item.Name := by
  obtain ⟨s, hs, h0, h1⟩ := applyOps_goodCursor ops _ (built_goodCursor input h)
  have hns : ¬ s < 0 := by omega
  have hlt : s.toNat < (applyOps (NewMenu input).1 ops).MenuItems.length := by
    omega
  refine ⟨s, (applyOps (NewMenu input).1 ops).MenuItems.get ⟨s.toNat, hlt⟩,
    hs, List.get?_eq_get hlt, ?_⟩
  simp only [GetSelectedItem, hs, hns]
  simp [hns]
  exact ⟨_, List.getElem?_eq_getElem hlt, rfl⟩

theorem selected_item_name_witness :
    ∃ (s : Int) (item : MenuItem),
      (applyOps (NewMenu sampleInput).1 [NavOp.inc, NavOp.inc]).SelectedIndex = some s ∧
      (applyOps (NewMenu sampleInput).1 [NavOp.inc, NavOp.inc]).MenuItems.get? s.toNat
        = some item ∧
      GetSelectedItem (applyOps (NewMenu sampleInput).1 [NavOp.inc, NavOp.inc])
        = some item.Name :=
  selected_item_name sampleInput rfl [NavOp.inc, NavOp.inc]

/-- C6: `Draw` processes items in index order from 0; the item at index `i`
is filled with its selected-background colour when `i` equals the cursor and
its background colour otherwise, its text is drawn with the selected-text
colour when `i` equals the cursor and the text colour otherwise, and its
surface is composited at translation `(Tx + i·Offx, Ty + i·Offy)` — the
cumulative translation advancing by `(Offx, Offy)` per item. -/
theorem draw_trace (m : MenuList) (s : Int) (hs : m.SelectedIndex = some s) :
    ∃ steps : List RenderStep,
      Draw m = some steps ∧
      steps.length = m.MenuItems.length ∧
      ∀ (i : Nat) (item : MenuItem), m.MenuItems.get? i = some item →
        steps.get? i = some
          { fillColour := if (i : Int) = s then item.SelBgColour else item.BgColour
            textColour := if (i : Int) = s then item.SelTxtColour else item.TxtColour
            textStr := item.Text
            textX := item.TxtX
            textY := item.TxtY
            translateX := m.Tx + (i : ℚ) * m.Offx
            translateY := m.Ty + (i : ℚ) * m.Offy } := by
  refine ⟨drawLoop s m.Offx m.Offy m.MenuItems 0 m.Tx m.Ty, ?_,
    drawLoop_length s m.Offx m.Offy m.MenuItems 0 m.Tx m.Ty, ?_⟩
  · rw [Draw, hs]
    rfl
  · intro i item hit
    have h := drawLoop_get? s m.Offx m.Offy m.MenuItems 0 m.Tx m.Ty i item hit
    simpa using h

theorem draw_trace_witness :
    (NewMenu sampleInput).1.SelectedIndex = some 0 ∧
    ∃ steps : List RenderStep,
      Draw (NewMenu sampleInput).1 = some steps ∧
      steps.length = (NewMenu sampleInput).1.MenuItems.length ∧
      ∀ (i : Nat) (item : MenuItem),
        (NewMenu sampleInput).1.MenuItems.get? i = some item →
        steps.get? i = some
          { fillColour := if (i : Int) = 0 then item.SelBgColour else item.BgColour
            textColour := if (i : Int) = 0 then item.SelTxtColour else item.TxtColour
            textStr := item.Text
            textX := item.TxtX
            textY := item.TxtY
            translateX := (NewMenu sampleInput).1.Tx + (i : ℚ) * (NewMenu sampleInput).1.Offx
            translateY := (NewMenu sampleInput).1.Ty + (i : ℚ) * (NewMenu sampleInput).1.Offy } :=
  ⟨rfl, draw_trace (NewMenu sampleInput).1 0 rfl⟩

end Menulist
